import Mathlib

/-!
Shallow embedding of updateSubmodules (update_submodules.py): the submodule
synchronization and fork-upstream reconciliation engine.  Every external
effect (a git subprocess call, a hosting-API request) is modelled by an
oracle field of an environment record; each Lean function mirrors the
control flow of its Python counterpart, records the externally visible
operations it attempts in an action trace, and collects the log lines it
prints.  Machine-level concerns (process spawning, network transport) are
outside the embedding; the oracles carry exactly the values the source
reads back from those calls.
-/

namespace ReadGuides

/-- Character-list prefix test (structural, so that concrete runs reduce
inside the kernel). -/
def listIsPrefix : List Char → List Char → Bool
  | [], _ => true
  | _ :: _, [] => false
  | a :: as, b :: bs => a == b && listIsPrefix as bs

/-- Substring occurrence on character lists: the pattern is a prefix of
some suffix. -/
def listContainsSub (pat : List Char) : List Char → Bool
  | [] => listIsPrefix pat []
  | s@(_ :: rest) => listIsPrefix pat s || listContainsSub pat rest

/-- Python `pat in s` (substring test). -/
def strContains (s pat : String) : Bool :=
  listContainsSub pat.toList s.toList

/-- Everything after the first occurrence of `c` (empty when `c` does not
occur). -/
def dropThroughFirst (c : Char) : List Char → List Char
  | [] => []
  | a :: as => if a == c then as else dropThroughFirst c as

/-- Everything before the first occurrence of `c` (the whole list when `c`
does not occur). -/
def takeBeforeFirst (c : Char) : List Char → List Char
  | [] => []
  | a :: as => if a == c then [] else a :: takeBeforeFirst c as

/-- Python `str.strip()` on a character list. -/
def listTrim (l : List Char) : List Char :=
  ((l.dropWhile Char.isWhitespace).reverse.dropWhile Char.isWhitespace).reverse

/-- Remove every occurrence of `pat` (Python `s.replace(pat, "")`), with a
fuel argument for structural termination; `pat` is nonempty at every call
site, so the initial fuel `l.length` always suffices. -/
def removeAllAux (pat : List Char) : Nat → List Char → List Char
  | 0, l => l
  | _ + 1, [] => []
  | fuel + 1, a :: as =>
    if pat ≠ [] ∧ listIsPrefix pat (a :: as) then
      removeAllAux pat fuel ((a :: as).drop pat.length)
    else a :: removeAllAux pat fuel as

/-- Python `s.replace(pat, "")`. -/
def removeAll (pat l : List Char) : List Char := removeAllAux pat l.length l

/-- Python `ln.split(":", 1)[1].strip()`: everything after the first colon,
trimmed.  Call sites only use this on lines known to contain a colon; on a
colon-free line this total version returns the empty string. -/
def afterFirstColonTrim (ln : String) : String :=
  ⟨listTrim (dropThroughFirst ':' ln.toList)⟩

/-- Python `n.split("/", 1)[1]`: everything after the first slash (used on
names known to contain a slash; returns `""` otherwise). -/
def afterFirstSlash (n : String) : String :=
  ⟨dropThroughFirst '/' n.toList⟩

/-- Scan `git remote show` output for the first line containing
`HEAD branch:` and return the text after the colon (source lines 112-115
and 344-347). -/
def findHeadBranch (lines : List String) : Option String :=
  (lines.find? (fun ln => strContains ln "HEAD branch:")).map afterFirstColonTrim

/-- The tail (after `host` and one separator) of a match of the regex
`([^/]+)/([^/.]+)(?:\.git)?$`: an owner segment that is nonempty and free of
slashes, one slash, and a repository segment that is nonempty and free of
slashes and dots, optionally suffixed by the literal `.git`. -/
def ownerRepoOfTail (t : String) : Option (String × String) :=
  let l := t.toList
  let owner := takeBeforeFirst '/' l
  let rest := dropThroughFirst '/' l
  if listContainsSub ['/'] l = false then none
  else if owner = [] then none
  else if listContainsSub ['/'] rest then none
  else if rest = [] then none
  else if listContainsSub ['.'] rest = false then some (⟨owner⟩, ⟨rest⟩)
  else if listIsPrefix ['t', 'i', 'g', '.'] rest.reverse then
    let repo := rest.take (rest.length - 4)
    if repo = [] then none
    else if listContainsSub ['.'] repo then none
    else some (⟨owner⟩, ⟨repo⟩)
  else none

/-- Python `re.search(host + r"[/:]([^/]+)/([^/.]+)(?:\.git)?$", url)`:
leftmost match, found by trying every start position from the left
(source lines 103-107, 195, 227, 275, 292 all use this one pattern shape,
instantiated with host `github.com` or `gitlab.com`). -/
def parseScanHost (host : List Char) : List Char → Option (String × String)
  | [] => none
  | s@(_ :: rest) =>
    (if listIsPrefix host s then
       match s.drop host.length with
       | [] => none
       | sep :: tail =>
         if sep == '/' || sep == ':' then ownerRepoOfTail ⟨tail⟩ else none
     else none).orElse (fun _ => parseScanHost host rest)

def parseOwnerRepoAfter (host url : String) : Option (String × String) :=
  parseScanHost host.toList url.toList

/-- `parse_github_owner_repo` (source lines 103-107). -/
def parse_github_owner_repo (url : String) : Option (String × String) :=
  parseOwnerRepoAfter "github.com" url

/-- `has_markdown_change` (source lines 313-314): some file name ends in
`.md` case-insensitively. -/
def has_markdown_change (files : List String) : Bool :=
  files.any (fun f => listIsPrefix ['d', 'm', '.'] ((f.toList.map Char.toLower).reverse))

/-- Per-submodule outcome record mirroring the dict built by
`update_single_submodule` (source lines 534-544).  The early-return dicts of
the failure paths omit the last two keys; the orchestrator reads those back
with `dict.get` and falsy defaults, so they are represented here by `false`
and `[]`. -/
structure ReconResult where
  name : String
  path : String
  branch : String
  upstream_url : String
  has_commits_to_push : Bool
  ahead_count : Nat
  changed_files : List String
  had_head_change : Bool
  session_changed_files : List String
  deriving DecidableEq, Repr

/-- The externally visible operations the engine attempts, in order.  Each
constructor corresponds to one effectful call site in the source. -/
inductive Action where
  | fetchOrigin
  | checkoutWorking (branch : String) (start : Option String)
  | discoverGitHub
  | discoverGitLab
  | addUpstreamRemote (url : String)
  | fetchUpstream
  | merge (ref : String)
  | reconcile (name : String)
  | pushSubmodule (path branch : String)
  | publishCall (mods : List ReconResult)
  | checkoutBase (branch : String)
  | checkoutNewBranch (start : String)
  | stagePath (p : String)
  | commitSuper
  | pushSuper
  | findPrCall
  | createPrCall
  | forumPost (msg : String)
  deriving DecidableEq, Repr

/-- One printed log line, as a structured event; `renderLog` below gives
the exact text the source prints for it (`log_error` lines carry the
`::error::` prefix).  Structuring the lines keeps the interpolated values
(paths, branches, URLs) available to the theorems. -/
inductive LogLine where
  | group (name path : String)
  | endGroup
  | skippingUninitialized (path : String)
  | couldNotGetOrigin (path : String)
  | originUrlIs (url : String)
  | failedFetchOrigin (path : String)
  | workingBranch (b : String)
  | usingExistingUpstream (u : String)
  | nonGitHubGitLabOrigin
  | addedUpstream (u : String)
  | noUpstreamSkipMerge (path : String)
  | fetchingUpstream (u b : String)
  | failedFetchUpstream (path : String)
  | warnUpstreamRefMissing (b : String)
  | fallingBack (b : String)
  | errUpstreamBranchMissing (b path : String)
  | merging (ub lb : String)
  | errMergeConflict (path : String)
  | mergeErrorDetails (path : String)
  | pushingToOrigin (b : String)
  | failedPushOrigin
  | noSubmodulesFound
  | dryRunReport
  | noMdChanges
  | failedCheckoutNewBranch (b : String)
  | noPathsToStage
  | failedAddPath (p : String)
  | nothingToCommit
  | failedCommit
  | dryRunWouldPush
  | failedPushBranch (b : String)
  | originNotGitHub
  | updatedExistingPr (url : String)
  | openedPr (url : String)
  | noGhToken
  | prCreationFailed
  | failedOpenPr
  | dryRunWouldPost
  deriving DecidableEq, Repr

/-- Environment of one submodule reconciliation: the values the source
reads back from the filesystem, the git subprocesses and the hosting APIs.
`Option` marks calls whose failure the source observes (`none` = the call
raised / returned nothing); an empty string in `preHead` / `postHead`
models the source leaving the default `""` when reading HEAD raised. -/
structure SubEnv where
  initialized : Bool
  preHead : String
  originUrl : Option String
  originFetchOk : Bool
  remoteShowOriginOut : Option (List String)
  activeBranch : Option String
  originRefNames : List String
  existingUpstreamUrl : Option String
  githubDiscovery : Option String
  gitlabDiscovery : Option String
  lsRemoteOut : Option (List String)
  upstreamRemoteUrlForQuery : Option String
  ghDefaultBranch : Option String
  glDefaultBranch : Option String
  upstreamFetchOk : Bool
  upstreamRefNames : List String
  mergeOk : Bool
  aheadRaw : Option Nat
  diffRaw : Option (List String)
  postHead : String
  sessionDiffRaw : Option (List String)

/-- `determine_working_branch` (source lines 340-353): the declared branch
if nonempty; else the first `HEAD branch:` line of `git remote show origin`
when that call succeeds and such a line exists; else the currently
checked-out branch; else the literal `main`. -/
def determine_working_branch (env : SubEnv) (desired : String) : String :=
  if desired ≠ "" then desired
  else
    match env.remoteShowOriginOut.bind findHeadBranch with
    | some b => b
    | none =>
      match env.activeBranch with
      | some b => b
      | none => "main"

/-- `ensure_checked_out_branch` (source lines 356-368): checkout `-B` from
the origin ref when it exists, else a plain `-B`.  All checkout errors are
swallowed by the source, so only the attempted action is recorded. -/
def ensure_checked_out_branch (env : SubEnv) (branch : String) : List Action :=
  if ("origin/" ++ branch) ∈ env.originRefNames then
    [Action.checkoutWorking branch (some ("origin/" ++ branch))]
  else
    [Action.checkoutWorking branch none]

/-- API fallback section of `get_upstream_default_branch` (source lines
264-306): query GitHub then GitLab for the default branch of the upstream
remote URL, defaulting to `main`. -/
def upstreamDefaultFromApi (env : SubEnv) : String :=
  let fromGh : Option String :=
    match env.upstreamRemoteUrlForQuery with
    | some url =>
      if strContains url "github.com" then
        match parseOwnerRepoAfter "github.com" url with
        | some _ => env.ghDefaultBranch
        | none => none
      else none
    | none => none
  match fromGh with
  | some b => b
  | none =>
    let fromGl : Option String :=
      match env.upstreamRemoteUrlForQuery with
      | some url =>
        if strContains url "gitlab.com" then
          match parseOwnerRepoAfter "gitlab.com" url with
          | some _ => env.glDefaultBranch
          | none => none
        else none
      | none => none
    fromGl.getD "main"

/-- `get_upstream_default_branch` (source lines 255-306): first the
`ls-remote --symref upstream HEAD` answer (the part of the first `ref:`
line before the tab, with the `ref: refs/heads/` prefix removed), then the
hosting APIs, then `main`. -/
def get_upstream_default_branch (env : SubEnv) : String :=
  match env.lsRemoteOut with
  | some lines =>
    match lines.find? (fun l => listIsPrefix "ref:".toList l.toList) with
    | some l =>
      ⟨listTrim (removeAll "ref: refs/heads/".toList (takeBeforeFirst '\t' l.toList))⟩
    | none => upstreamDefaultFromApi env
  | none => upstreamDefaultFromApi env

/-- `compute_ahead_and_changed_files` (source lines 371-388): zero and empty
when `refs/remotes/origin/<branch>` does not verify; otherwise the
`rev-list --count` and `diff --name-only` answers over
`origin/<branch>..HEAD`, each individually defaulting on error. -/
def compute_ahead_and_changed_files (env : SubEnv) (branch : String) : Nat × List String :=
  if ("origin/" ++ branch) ∈ env.originRefNames then
    (env.aheadRaw.getD 0, env.diffRaw.getD [])
  else (0, [])

/-- Candidate selection of the upstream-branch fallback (source lines
483-490): `main` if fetched, else `master` if fetched, else the part after
the first slash of the first fetched ref name that contains a slash. -/
def upstreamFallbackCandidate (refs : List String) : Option String :=
  if "upstream/main" ∈ refs then some "main"
  else if "upstream/master" ∈ refs then some "master"
  else if refs.isEmpty then none
  else
    (refs.filterMap (fun n =>
      if strContains n "/" then some (afterFirstSlash n) else none)).head?

/-- Outcome of one submodule reconciliation: the `(ok, result)` pair the
source returns, plus the attempted external actions and the printed log
lines (log_error lines carry the `::error::` prefix the source prints). -/
structure ReconOutcome where
  ok : Bool
  result : ReconResult
  actions : List Action
  logs : List LogLine
  deriving DecidableEq

/-- The early-return result dicts of `update_single_submodule` (source
lines 410-414, 427-431, 438-442, 473-477, 496-500, 511-515): everything
zero or empty except the identifying fields. -/
def baseResult (name path branch uurl : String) : ReconResult :=
  { name := name, path := path, branch := branch, upstream_url := uurl
    has_commits_to_push := false, ahead_count := 0, changed_files := []
    had_head_change := false, session_changed_files := [] }

/-- Upstream remote resolution (source lines 448-464): reuse a configured
`upstream` remote verbatim; otherwise run hosting-API discovery keyed on
the origin URL host, and register the discovered URL as a new remote
(`create_remote` errors are swallowed by the source).  Returns the
resolved upstream URL (empty = none), the attempted actions and the log
lines. -/
def upstreamResolution (env : SubEnv) (origin_url : String) :
    String × List Action × List LogLine :=
  match env.existingUpstreamUrl with
  | some u => (u, [], [LogLine.usingExistingUpstream u])
  | none =>
    let step : String × List Action × List LogLine :=
      if strContains origin_url "github.com" then
        (env.githubDiscovery.getD "", [Action.discoverGitHub], [])
      else if strContains origin_url "gitlab.com" then
        (env.gitlabDiscovery.getD "", [Action.discoverGitLab], [])
      else ("", [], [LogLine.nonGitHubGitLabOrigin])
    if step.1 ≠ "" then
      (step.1, step.2.1 ++ [Action.addUpstreamRemote step.1],
       step.2.2 ++ [LogLine.addedUpstream step.1])
    else step

/-- Tail of the reconciliation after a successful (or absent) merge
(source lines 519-544): ahead count, changed files, the session range
`preHead..postHead` when HEAD moved during the run, and the final result
dict with `ok = true`. -/
def successOutcome (env : SubEnv) (name path local_branch upstream_url : String)
    (acts : List Action) (lgs : List LogLine) : ReconOutcome :=
  let ac := compute_ahead_and_changed_files env local_branch
  let had : Bool := env.preHead ≠ "" ∧ env.postHead ≠ "" ∧ env.preHead ≠ env.postHead
  let session : List String := if had then env.sessionDiffRaw.getD [] else []
  { ok := true
    result :=
      { name := name, path := path, branch := local_branch
        upstream_url := upstream_url
        has_commits_to_push := decide (0 < ac.1)
        ahead_count := ac.1, changed_files := ac.2
        had_head_change := had, session_changed_files := session }
    actions := acts
    logs := lgs }

/-- The merge step of the reconciliation (source lines 502-515), entered
with the resolved upstream branch `ub`: attempt the merge, fatal on
conflict, otherwise continue with the success tail. -/
def mergeFinish (env : SubEnv) (name path local_branch upstream_url ub : String)
    (acts : List Action) (lgs2 : List LogLine) : ReconOutcome :=
  let mergeActs := acts ++ [Action.fetchUpstream, Action.merge ("upstream/" ++ ub)]
  if env.mergeOk = false then
    { ok := false
      result := baseResult name path local_branch upstream_url
      actions := mergeActs
      logs := lgs2 ++
        [LogLine.merging ub local_branch, LogLine.errMergeConflict path,
         LogLine.mergeErrorDetails path] }
  else
    successOutcome env name path local_branch upstream_url mergeActs
      (lgs2 ++ [LogLine.merging ub local_branch])

/-- Upstream fetch / branch fallback / merge phase of the reconciliation
(source lines 466-517), entered with the resolved upstream URL: with no
upstream, skip straight to the success tail; with an upstream, fetch it
(fatal on failure), resolve the branch with the fallback chain (fatal when
no candidate survives), then merge (fatal on conflict). -/
def mergePhase (env : SubEnv) (name path local_branch upstream_url : String)
    (acts : List Action) (lgs : List LogLine) : ReconOutcome :=
  if upstream_url ≠ "" then
    let ub0 := get_upstream_default_branch env
    let lgs1 := lgs ++ [LogLine.fetchingUpstream upstream_url ub0]
    if env.upstreamFetchOk = false then
      { ok := false
        result := baseResult name path local_branch upstream_url
        actions := acts ++ [Action.fetchUpstream]
        logs := lgs1 ++ [LogLine.failedFetchUpstream path] }
    else
      let refs := env.upstreamRefNames
      if ("upstream/" ++ ub0) ∈ refs then
        mergeFinish env name path local_branch upstream_url ub0 acts lgs1
      else
        let warn := LogLine.warnUpstreamRefMissing ub0
        let failOut : ReconOutcome :=
          { ok := false
            result := baseResult name path local_branch upstream_url
            actions := acts ++ [Action.fetchUpstream]
            logs := lgs1 ++ [warn, LogLine.errUpstreamBranchMissing ub0 path] }
        match upstreamFallbackCandidate refs with
        | some c =>
          if c ≠ "" ∧ c ≠ ub0 then
            mergeFinish env name path local_branch upstream_url c acts
              (lgs1 ++ [warn, LogLine.fallingBack c])
          else failOut
        | none => failOut
  else
    successOutcome env name path local_branch upstream_url acts
      (lgs ++ [LogLine.noUpstreamSkipMerge path])

/-- Body of `update_single_submodule` (source lines 405-544), without the
`::group::` framing. -/
def updateSingleCore (env : SubEnv) (name path desired : String) : ReconOutcome :=
  if env.initialized = false then
    { ok := true
      result := baseResult name path desired ""
      actions := []
      logs := [LogLine.skippingUninitialized path] }
  else
    match env.originUrl with
    | none =>
      { ok := false
        result := baseResult name path desired ""
        actions := []
        logs := [LogLine.couldNotGetOrigin path] }
    | some origin_url =>
      if env.originFetchOk = false then
        { ok := false
          result := baseResult name path desired ""
          actions := [Action.fetchOrigin]
          logs := [LogLine.originUrlIs origin_url, LogLine.failedFetchOrigin path] }
      else
        let local_branch := determine_working_branch env desired
        let checkoutActs := ensure_checked_out_branch env local_branch
        let ur := upstreamResolution env origin_url
        mergePhase env name path local_branch ur.1
          (Action.fetchOrigin :: checkoutActs ++ ur.2.1)
          ([LogLine.originUrlIs origin_url,
            LogLine.workingBranch local_branch] ++ ur.2.2)

/-- `update_single_submodule` (source lines 405-546): the core body wrapped
in the `try/finally` log-group framing.  The source captures every failure
it anticipates as `ok = false` plus a log line; this embedding is a total
function of the environment. -/
def update_single_submodule (env : SubEnv) (name path desired : String) : ReconOutcome :=
  let o := updateSingleCore env name path desired
  { o with logs := LogLine.group name path :: o.logs ++ [LogLine.endGroup] }

/-- One `.gitmodules` entry as returned by `get_submodules` (source lines
317-337): name, path and declared branch (possibly empty). -/
structure SubSpec where
  name : String
  path : String
  branch : String
  deriving DecidableEq

/-- Accumulated state of the orchestrator loop (source lines 657-664):
results collected so far, overall success, attempted actions and logs. -/
structure LoopOut where
  results : List ReconResult
  ok : Bool
  actions : List Action
  logs : List LogLine

/-- The per-submodule loop of `update_all_submodules` (source lines
657-667): reconcile each submodule in manifest order, collecting results,
and break on the first `ok = false`. -/
def runSubmodules : List (SubSpec × SubEnv) → LoopOut
  | [] => ⟨[], true, [], []⟩
  | (spec, env) :: rest =>
    let o := update_single_submodule env spec.name spec.path spec.branch
    if o.ok then
      let r := runSubmodules rest
      ⟨o.result :: r.results, r.ok,
       (Action.reconcile spec.name :: o.actions) ++ r.actions, o.logs ++ r.logs⟩
    else
      ⟨[], false, Action.reconcile spec.name :: o.actions, o.logs⟩

/-- The aggregate markdown gate (source lines 669-672): OR over all results
of `has_markdown_change` on either changed-file range. -/
def anyMdChanged (results : List ReconResult) : Bool :=
  results.any (fun r =>
    has_markdown_change r.changed_files || has_markdown_change r.session_changed_files)

/-- The updated-modules selection (source line 673): results with commits
to push or a head change. -/
def updatedModules (results : List ReconResult) : List ReconResult :=
  results.filter (fun r => r.has_commits_to_push || r.had_head_change)

/-- Outcome of the submodule push loop (source lines 720-723): overall
success plus the attempted pushes; the loop stops at the first failed
push. -/
structure PushOut where
  ok : Bool
  actions : List Action
  logs : List LogLine

/-- The push loop over the updated modules (source lines 720-723 and
391-398), driven by a per-path success oracle. -/
def pushUpdated (pushOk : String → Bool) : List ReconResult → PushOut
  | [] => ⟨true, [], []⟩
  | r :: rest =>
    if pushOk r.path then
      let t := pushUpdated pushOk rest
      ⟨t.ok, Action.pushSubmodule r.path r.branch :: t.actions,
       LogLine.pushingToOrigin r.branch :: t.logs⟩
    else
      ⟨false, [Action.pushSubmodule r.path r.branch],
       [LogLine.pushingToOrigin r.branch, LogLine.failedPushOrigin]⟩

/-- Environment of the Publication Manager
(`commit_superproject_changes_and_open_pr`, source lines 549-643): the
values read back from the superproject working tree, the git remote and
the GitHub / forum APIs. -/
structure SuperEnv where
  remoteShowOut : Option (List String)
  originRefs : List String
  checkoutNewOk : Bool
  stageOk : String → Bool
  dirty : Bool
  commitOk : Bool
  pushOk : Bool
  originUrl : Option String
  ghToken : String
  findPrApi : Option String
  createPrApi : Option String

/-- `get_remote_default_branch` (source lines 110-118): the `HEAD branch:`
answer of `git remote show`, defaulting to `main`. -/
def get_remote_default_branch (remoteShowOut : Option (List String)) : String :=
  match remoteShowOut.bind findHeadBranch with
  | some b => b
  | none => "main"

/-- `find_existing_github_pr` (source lines 143-163): `none` without a
token; otherwise the API answer (already reduced to the matching PR URL,
with every exception collapsed to `none` as in the source). -/
def find_existing_github_pr (ghToken : String) (api : Option String) : Option String :=
  if ghToken = "" then none else api

/-- `create_github_pr` (source lines 121-140): refuse without a token
(logged); otherwise the API answer, failures logged and collapsed to
`none`. -/
def create_github_pr (ghToken : String) (api : Option String) :
    Option String × List LogLine :=
  if ghToken = "" then (none, [LogLine.noGhToken])
  else
    match api with
    | some url => (some url, [])
    | none => (none, [LogLine.prCreationFailed])

/-- The staged superproject paths (source line 576): the sorted set of
nonempty paths of the updated modules. -/
def changedPathsOf (updated : List ReconResult) : List String :=
  (((updated.map (fun r => r.path)).filter (fun p => p ≠ "")).dedup).insertionSort
    (fun a b => a < b)

/-- Outcome of the Publication Manager: return value, attempted actions
and log lines. -/
structure PubOutcome where
  ok : Bool
  actions : List Action
  logs : List LogLine

/-- `commit_superproject_changes_and_open_pr` (source lines 549-643):
checkout the base branch, reset-or-create the rolling automation branch
`auto/submodule-updates` (from its own remote tip when that exists, else
from the base branch), stage the updated submodule pointers, commit, push,
then find-or-create the GitHub PR and notify the forum; every PR-step
failure is logged without failing the run.  Base-branch checkout errors
are swallowed by the source (lines 556-562), so only the attempt is
recorded. -/
def commit_superproject_changes_and_open_pr (dryRun : Bool) (env : SuperEnv)
    (updated : List ReconResult) : PubOutcome :=
  let base := get_remote_default_branch env.remoteShowOut
  let newb := "auto/submodule-updates"
  let start :=
    if ("origin/" ++ newb) ∈ env.originRefs then "origin/" ++ newb
    else "origin/" ++ base
  let a1 := [Action.checkoutBase base, Action.checkoutNewBranch start]
  if env.checkoutNewOk = false then
    ⟨false, a1, [LogLine.failedCheckoutNewBranch newb]⟩
  else
    let changed_paths := changedPathsOf updated
    if changed_paths.isEmpty then
      ⟨true, a1, [LogLine.noPathsToStage]⟩
    else
      let a2 := a1 ++ changed_paths.map Action.stagePath
      let stageLogs := changed_paths.filterMap (fun p =>
        if env.stageOk p then none else some (LogLine.failedAddPath p))
      if env.dirty = false then
        ⟨true, a2, stageLogs ++ [LogLine.nothingToCommit]⟩
      else
        let a3 := a2 ++ [Action.commitSuper]
        if env.commitOk = false then
          ⟨false, a3, stageLogs ++ [LogLine.failedCommit]⟩
        else if dryRun then
          ⟨true, a3, stageLogs ++ [LogLine.dryRunWouldPush]⟩
        else
          let a4 := a3 ++ [Action.pushSuper]
          if env.pushOk = false then
            ⟨false, a4, stageLogs ++ [LogLine.failedPushBranch newb]⟩
          else
            let origin_url := env.originUrl.getD ""
            let owner_repo :=
              if origin_url = "" then none else parse_github_owner_repo origin_url
            match owner_repo with
            | none => ⟨true, a4, stageLogs ++ [LogLine.originNotGitHub]⟩
            | some _ =>
              let a5 := a4 ++ [Action.findPrCall]
              match find_existing_github_pr env.ghToken env.findPrApi with
              | some url => ⟨true, a5, stageLogs ++ [LogLine.updatedExistingPr url]⟩
              | none =>
                let a6 := a5 ++ [Action.createPrCall]
                let cp := create_github_pr env.ghToken env.createPrApi
                match cp.1 with
                | some url =>
                  if dryRun then
                    ⟨true, a6, stageLogs ++ cp.2 ++
                      [LogLine.openedPr url, LogLine.dryRunWouldPost]⟩
                  else
                    ⟨true, a6 ++ [Action.forumPost url], stageLogs ++ cp.2 ++
                      [LogLine.openedPr url]⟩
                | none => ⟨true, a6, stageLogs ++ cp.2 ++ [LogLine.failedOpenPr]⟩

/-- Outcome of a whole run of the Fleet Orchestrator. -/
structure RunOutcome where
  ok : Bool
  actions : List Action
  logs : List LogLine

/-- `update_all_submodules` (source lines 650-730): reconcile every
submodule (fail-fast), compute the markdown gate and the updated-modules
set, stop after reporting in dry-run mode, otherwise push the updated
modules and invoke the Publication Manager only when some changed-file set
contains markdown. -/
def update_all_submodules (dryRun : Bool) (mods : List (SubSpec × SubEnv))
    (pushOk : String → Bool) (senv : SuperEnv) : RunOutcome :=
  if mods.isEmpty then ⟨true, [], [LogLine.noSubmodulesFound]⟩
  else
    let L := runSubmodules mods
    if L.ok = false then ⟨false, L.actions, L.logs⟩
    else
      let any_md := anyMdChanged L.results
      let updated := updatedModules L.results
      if dryRun then
        ⟨true, L.actions, L.logs ++ [LogLine.dryRunReport]⟩
      else if any_md then
        let P := pushUpdated pushOk updated
        if P.ok = false then ⟨false, L.actions ++ P.actions, L.logs ++ P.logs⟩
        else
          let pub := commit_superproject_changes_and_open_pr dryRun senv updated
          ⟨pub.ok,
           L.actions ++ P.actions ++ Action.publishCall updated :: pub.actions,
           L.logs ++ P.logs ++ pub.logs⟩
      else
        ⟨true, L.actions, L.logs ++ [LogLine.noMdChanges]⟩

/-- `build_config` dry-run wiring (source lines 42-47): dry run is the
negation of push-enabled. -/
def build_config_dry_run (push_enabled : Bool) : Bool := !push_enabled

/-- `main` (source lines 737-747): `push_enabled = not no_push`, and the
process exits `0` exactly when `update_all_submodules` returned `True`. -/
def mainExitCode (noPush : Bool) (mods : List (SubSpec × SubEnv))
    (pushOk : String → Bool) (senv : SuperEnv) : Nat :=
  if (update_all_submodules (build_config_dry_run !noPush) mods pushOk senv).ok
  then 0 else 1

end ReadGuides

namespace ReadGuides

/-- Recognize the orchestrator action that invokes the Publication
Manager. -/
def isPublishCall : Action → Bool
  | Action.publishCall _ => true
  | _ => false

/-- The trace contains a Publication Manager invocation. -/
def hasPublishCall (tr : List Action) : Bool := tr.any isPublishCall

/-- Recognize a submodule push. -/
def isSubmodulePushAct : Action → Bool
  | Action.pushSubmodule _ _ => true
  | _ => false

/-- The trace contains a submodule push. -/
def hasSubmodulePush (tr : List Action) : Bool := tr.any isSubmodulePushAct

/-- The log lines that accompany the five `ok = false` paths of
`update_single_submodule` (missing origin, origin-fetch failure,
upstream-fetch failure, missing upstream branch, merge conflict). -/
def isFailLog : LogLine → Bool
  | LogLine.couldNotGetOrigin _ => true
  | LogLine.failedFetchOrigin _ => true
  | LogLine.failedFetchUpstream _ => true
  | LogLine.errUpstreamBranchMissing _ _ => true
  | LogLine.errMergeConflict _ => true
  | _ => false

/-- The warning line of the upstream-branch fallback. -/
def isWarnLog : LogLine → Bool
  | LogLine.warnUpstreamRefMissing _ => true
  | _ => false

lemma successOutcome_actions (env : SubEnv) (n p lb uu : String)
    (acts : List Action) (lgs : List LogLine) :
    (successOutcome env n p lb uu acts lgs).actions = acts := rfl

lemma successOutcome_ok (env : SubEnv) (n p lb uu : String)
    (acts : List Action) (lgs : List LogLine) :
    (successOutcome env n p lb uu acts lgs).ok = true := rfl

lemma mergeFinish_actions (env : SubEnv) (n p lb uu ub : String)
    (acts : List Action) (lgs : List LogLine) :
    (mergeFinish env n p lb uu ub acts lgs).actions =
      acts ++ [Action.fetchUpstream, Action.merge ("upstream/" ++ ub)] := by
  unfold mergeFinish
  split <;> rfl

/-- An "is this kind of action in the trace" predicate distributes over the
merge phase: the phase only ever appends fetch / merge actions to the
actions it is given. -/
lemma mergePhase_any (q : Action → Bool)
    (hFetch : q Action.fetchUpstream = false)
    (hMerge : ∀ r, q (Action.merge r) = false)
    (env : SubEnv) (n p lb uu : String) (acts : List Action) (lgs : List LogLine) :
    (mergePhase env n p lb uu acts lgs).actions.any q = acts.any q := by
  unfold mergePhase
  dsimp only
  split
  · split
    · simp [List.any_append, hFetch]
    · split
      · simp [mergeFinish_actions, List.any_append, hFetch, hMerge]
      · split
        · split
          · simp [mergeFinish_actions, List.any_append, hFetch, hMerge]
          · simp [List.any_append, hFetch]
        · simp [List.any_append, hFetch]
  · simp [successOutcome_actions]

lemma upstreamResolution_any (q : Action → Bool)
    (hGh : q Action.discoverGitHub = false)
    (hGl : q Action.discoverGitLab = false)
    (hAdd : ∀ u, q (Action.addUpstreamRemote u) = false)
    (env : SubEnv) (origin_url : String) :
    (upstreamResolution env origin_url).2.1.any q = false := by
  unfold upstreamResolution
  dsimp only
  split
  · rfl
  · split_ifs <;> simp [List.any_append, hGh, hGl, hAdd]

lemma ensure_checked_out_branch_any (q : Action → Bool)
    (hCo : ∀ b s, q (Action.checkoutWorking b s) = false)
    (env : SubEnv) (branch : String) :
    (ensure_checked_out_branch env branch).any q = false := by
  unfold ensure_checked_out_branch
  split <;> simp [hCo]

/-- No action of a single reconciliation is of a kind reserved to the
orchestrator or the Publication Manager (push of a submodule, publish
invocation, superproject operations). -/
lemma update_single_any (q : Action → Bool)
    (hFetchO : q Action.fetchOrigin = false)
    (hCo : ∀ b s, q (Action.checkoutWorking b s) = false)
    (hGh : q Action.discoverGitHub = false)
    (hGl : q Action.discoverGitLab = false)
    (hAdd : ∀ u, q (Action.addUpstreamRemote u) = false)
    (hFetch : q Action.fetchUpstream = false)
    (hMerge : ∀ r, q (Action.merge r) = false)
    (env : SubEnv) (n p d : String) :
    (update_single_submodule env n p d).actions.any q = false := by
  show (updateSingleCore env n p d).actions.any q = false
  unfold updateSingleCore
  dsimp only
  split
  · rfl
  · split
    · rfl
    · split
      · simp [hFetchO]
      · rw [mergePhase_any q hFetch hMerge]
        simp [List.any_cons, List.any_append, hFetchO,
          ensure_checked_out_branch_any q hCo,
          upstreamResolution_any q hGh hGl hAdd]


lemma successOutcome_result_hcp (env : SubEnv) (n p lb uu : String)
    (acts : List Action) (lgs : List LogLine) :
    (successOutcome env n p lb uu acts lgs).result.has_commits_to_push =
      decide (0 < (successOutcome env n p lb uu acts lgs).result.ahead_count) := rfl

lemma mergeFinish_result_hcp (env : SubEnv) (n p lb uu ub : String)
    (acts : List Action) (lgs : List LogLine) :
    (mergeFinish env n p lb uu ub acts lgs).result.has_commits_to_push =
      decide (0 < (mergeFinish env n p lb uu ub acts lgs).result.ahead_count) := by
  unfold mergeFinish
  split <;> rfl

lemma mergePhase_result_hcp (env : SubEnv) (n p lb uu : String)
    (acts : List Action) (lgs : List LogLine) :
    (mergePhase env n p lb uu acts lgs).result.has_commits_to_push =
      decide (0 < (mergePhase env n p lb uu acts lgs).result.ahead_count) := by
  unfold mergePhase
  dsimp only
  split
  · split
    · rfl
    · split
      · exact mergeFinish_result_hcp ..
      · split
        · split
          · exact mergeFinish_result_hcp ..
          · rfl
        · rfl
  · exact successOutcome_result_hcp ..

lemma updateSingleCore_result_hcp (env : SubEnv) (n p d : String) :
    (updateSingleCore env n p d).result.has_commits_to_push =
      decide (0 < (updateSingleCore env n p d).result.ahead_count) := by
  unfold updateSingleCore
  dsimp only
  split
  · rfl
  · split
    · rfl
    · split
      · rfl
      · exact mergePhase_result_hcp ..

/-- In every result record the reconciler produces,
`has_commits_to_push` is exactly `ahead_count > 0` (source line 539 for the
success dict, and `false` with `ahead_count = 0` on every early return). -/
lemma update_single_result_hcp (env : SubEnv) (n p d : String) :
    (update_single_submodule env n p d).result.has_commits_to_push =
      decide (0 < (update_single_submodule env n p d).result.ahead_count) :=
  updateSingleCore_result_hcp ..

lemma runSubmodules_results_hcp (l : List (SubSpec × SubEnv)) :
    ∀ r ∈ (runSubmodules l).results,
      r.has_commits_to_push = decide (0 < r.ahead_count) := by
  induction l with
  | nil => intro r hr; simp [runSubmodules] at hr
  | cons hd tl ih =>
    intro r hr
    unfold runSubmodules at hr
    dsimp only at hr
    split at hr
    · rcases List.mem_cons.mp hr with h | h
      · subst h; exact update_single_result_hcp ..
      · exact ih r h
    · simp at hr

lemma runSubmodules_no_publish (l : List (SubSpec × SubEnv)) :
    hasPublishCall (runSubmodules l).actions = false := by
  induction l with
  | nil => rfl
  | cons hd tl ih =>
    unfold runSubmodules
    dsimp only
    have hs := update_single_any isPublishCall rfl (fun _ _ => rfl) rfl rfl
      (fun _ => rfl) rfl (fun _ => rfl) hd.2 hd.1.name hd.1.path hd.1.branch
    split <;>
      simp_all [hasPublishCall, List.any_append, List.any_cons, isPublishCall]

lemma runSubmodules_no_subpush (l : List (SubSpec × SubEnv)) :
    hasSubmodulePush (runSubmodules l).actions = false := by
  induction l with
  | nil => rfl
  | cons hd tl ih =>
    unfold runSubmodules
    dsimp only
    have hs := update_single_any isSubmodulePushAct rfl (fun _ _ => rfl) rfl rfl
      (fun _ => rfl) rfl (fun _ => rfl) hd.2 hd.1.name hd.1.path hd.1.branch
    split <;>
      simp_all [hasSubmodulePush, List.any_append, List.any_cons, isSubmodulePushAct]

lemma pushUpdated_ok_iff (f : String → Bool) (l : List ReconResult) :
    (pushUpdated f l).ok = true ↔ ∀ r ∈ l, f r.path = true := by
  induction l with
  | nil => simp [pushUpdated]
  | cons hd tl ih =>
    unfold pushUpdated
    dsimp only
    split
    · simpa [ih] using fun _ => by assumption
    · simp_all

lemma pushUpdated_no_publish (f : String → Bool) (l : List ReconResult) :
    hasPublishCall (pushUpdated f l).actions = false := by
  induction l with
  | nil => rfl
  | cons hd tl ih =>
    unfold pushUpdated
    dsimp only
    split <;> simp_all [hasPublishCall, List.any_cons, isPublishCall]

lemma pushUpdated_mem (f : String → Bool) (l : List ReconResult) (p b : String) :
    Action.pushSubmodule p b ∈ (pushUpdated f l).actions →
      ∃ r ∈ l, r.path = p ∧ r.branch = b := by
  induction l with
  | nil => intro h; simp [pushUpdated] at h
  | cons hd tl ih =>
    unfold pushUpdated
    dsimp only
    split
    · intro h
      rcases List.mem_cons.mp h with h | h
      · exact ⟨hd, List.mem_cons_self .., by injection h with h1 h2; exact ⟨h1.symm, h2.symm⟩⟩
      · obtain ⟨r, hr, he⟩ := ih h
        exact ⟨r, List.mem_cons_of_mem _ hr, he⟩
    · intro h
      rcases List.mem_cons.mp h with h | h
      · exact ⟨hd, List.mem_cons_self .., by injection h with h1 h2; exact ⟨h1.symm, h2.symm⟩⟩
      · simp at h


lemma any_stagePaths_false (q : Action → Bool)
    (h3 : ∀ p, q (Action.stagePath p) = false) (paths : List String) :
    (paths.map Action.stagePath).any q = false := by
  induction paths with
  | nil => rfl
  | cons hd tl ih => simp [List.any_cons, h3, ih]

set_option maxHeartbeats 1000000 in
/-- The actions of the Publication Manager beyond its two initial checkout
attempts never satisfy a predicate that is false on staging, commit, push,
PR and forum actions: any such predicate evaluates over the whole trace
exactly as over the two checkouts. -/
lemma pub_any (q : Action → Bool)
    (h3 : ∀ p, q (Action.stagePath p) = false)
    (h4 : q Action.commitSuper = false)
    (h5 : q Action.pushSuper = false)
    (h6 : q Action.findPrCall = false)
    (h7 : q Action.createPrCall = false)
    (h8 : ∀ m, q (Action.forumPost m) = false)
    (dry : Bool) (env : SuperEnv) (updated : List ReconResult) :
    (commit_superproject_changes_and_open_pr dry env updated).actions.any q =
      [Action.checkoutBase (get_remote_default_branch env.remoteShowOut),
       Action.checkoutNewBranch
         (if "origin/auto/submodule-updates" ∈ env.originRefs
          then "origin/auto/submodule-updates"
          else "origin/" ++ get_remote_default_branch env.remoteShowOut)].any q := by
  unfold commit_superproject_changes_and_open_pr
  have hA : ("origin/" ++ "auto/submodule-updates" : String) = "origin/auto/submodule-updates" := rfl
  dsimp only
  rw [hA]
  repeat' split
  all_goals
    simp [List.any_append, List.any_cons, any_stagePaths_false q h3, h4, h5, h6, h7, h8]

/-- Reaching the PR step: when the rolling-branch checkout, staging target,
dirtiness, commit and push all succeed in live mode, the Publication
Manager returns `True` whatever the PR / forum oracles hold. -/
lemma pub_ok (env : SuperEnv) (updated : List ReconResult)
    (h1 : env.checkoutNewOk = true)
    (h2 : (changedPathsOf updated).isEmpty = false)
    (h3 : env.dirty = true) (h4 : env.commitOk = true) (h5 : env.pushOk = true) :
    (commit_superproject_changes_and_open_pr false env updated).ok = true := by
  unfold commit_superproject_changes_and_open_pr
  simp only [h1, h2, h3, h4, h5, Bool.true_eq_false, if_false, Bool.false_eq_true]
  repeat' split
  all_goals rfl

/-- Fail-fast shape of the orchestrator loop: with every submodule before
the failing one succeeding and the failing one returning `ok = false`, the
loop fails and its trace is exactly the trace of processing the prefix and
the failing module alone (nothing afterwards runs). -/
lemma runSubmodules_fail_fast (pre : List (SubSpec × SubEnv))
    (spec : SubSpec) (env : SubEnv) (rest : List (SubSpec × SubEnv))
    (hpre : ∀ q ∈ pre, (update_single_submodule q.2 q.1.name q.1.path q.1.branch).ok = true)
    (hfail : (update_single_submodule env spec.name spec.path spec.branch).ok = false) :
    (runSubmodules (pre ++ (spec, env) :: rest)).ok = false ∧
    (runSubmodules (pre ++ (spec, env) :: rest)).actions =
      (runSubmodules (pre ++ [(spec, env)])).actions := by
  induction pre with
  | nil =>
    simp only [List.nil_append]
    unfold runSubmodules
    dsimp only
    rw [hfail]
    simp
  | cons hd tl ih =>
    have hhd := hpre hd (List.mem_cons_self ..)
    have htl : ∀ q ∈ tl, (update_single_submodule q.2 q.1.name q.1.path q.1.branch).ok = true :=
      fun q hq => hpre q (List.mem_cons_of_mem _ hq)
    obtain ⟨ih1, ih2⟩ := ih htl
    simp only [List.cons_append]
    unfold runSubmodules
    dsimp only
    rw [hhd, ih2]
    simp [ih1]

/-- The updated-modules selection agrees with the `aheadCount > 0` OR
`hadHeadChange` filter on every result list the loop produces. -/
lemma updatedModules_runSubmodules (l : List (SubSpec × SubEnv)) :
    updatedModules (runSubmodules l).results =
      (runSubmodules l).results.filter
        (fun r => decide (0 < r.ahead_count) || r.had_head_change) := by
  unfold updatedModules
  exact List.filter_congr (fun r hr => by rw [runSubmodules_results_hcp l r hr])


lemma pub_no_publish (dry : Bool) (env : SuperEnv) (updated : List ReconResult) :
    hasPublishCall (commit_superproject_changes_and_open_pr dry env updated).actions = false := by
  have h := pub_any isPublishCall (fun _ => rfl) rfl rfl rfl rfl (fun _ => rfl) dry env updated
  simpa [hasPublishCall, isPublishCall] using h

lemma pub_no_subpush (dry : Bool) (env : SuperEnv) (updated : List ReconResult) :
    hasSubmodulePush (commit_superproject_changes_and_open_pr dry env updated).actions = false := by
  have h := pub_any isSubmodulePushAct (fun _ => rfl) rfl rfl rfl rfl (fun _ => rfl) dry env updated
  simpa [hasSubmodulePush, isSubmodulePushAct] using h

lemma hasPublishCall_append (a b : List Action) :
    hasPublishCall (a ++ b) = (hasPublishCall a || hasPublishCall b) :=
  List.any_append

lemma hasPublishCall_cons (x : Action) (l : List Action) :
    hasPublishCall (x :: l) = (isPublishCall x || hasPublishCall l) := rfl

lemma hasSubmodulePush_append (a b : List Action) :
    hasSubmodulePush (a ++ b) = (hasSubmodulePush a || hasSubmodulePush b) :=
  List.any_append

lemma mem_publishCall_has (l : List ReconResult) (tr : List Action) :
    Action.publishCall l ∈ tr → hasPublishCall tr = true :=
  fun h => List.any_eq_true.mpr ⟨_, h, rfl⟩

lemma mem_pushSubmodule_has (p b : String) (tr : List Action) :
    Action.pushSubmodule p b ∈ tr → hasSubmodulePush tr = true :=
  fun h => List.any_eq_true.mpr ⟨_, h, rfl⟩

/-- Exact characterization of when a run invokes the Publication Manager:
live mode, a nonempty manifest, a fully successful reconciliation loop, the
markdown gate, and a fully successful push loop over the updated modules. -/
lemma update_all_publish_char (dry : Bool) (mods : List (SubSpec × SubEnv))
    (pushOk : String → Bool) (senv : SuperEnv) :
    hasPublishCall (update_all_submodules dry mods pushOk senv).actions =
      (!mods.isEmpty && (runSubmodules mods).ok && !dry &&
        anyMdChanged (runSubmodules mods).results &&
        (pushUpdated pushOk (updatedModules (runSubmodules mods).results)).ok) := by
  unfold update_all_submodules
  dsimp only
  split
  · simp_all [hasPublishCall]
  · split
    · simp_all [runSubmodules_no_publish]
    · split
      · simp_all [runSubmodules_no_publish]
      · split
        · split
          · simp_all [hasPublishCall_append, runSubmodules_no_publish,
              pushUpdated_no_publish]
          · simp_all [hasPublishCall_append, hasPublishCall_cons, isPublishCall,
              runSubmodules_no_publish, pushUpdated_no_publish, pub_no_publish]
        · simp_all [runSubmodules_no_publish]

/-- The only Publication Manager invocation a run can contain carries
exactly the updated-modules list of that run. -/
lemma update_all_publish_arg (dry : Bool) (mods : List (SubSpec × SubEnv))
    (pushOk : String → Bool) (senv : SuperEnv) (l : List ReconResult) :
    Action.publishCall l ∈ (update_all_submodules dry mods pushOk senv).actions →
      l = updatedModules (runSubmodules mods).results := by
  intro hmem
  unfold update_all_submodules at hmem
  dsimp only at hmem
  split at hmem
  · simp at hmem
  · split at hmem
    · exact absurd (mem_publishCall_has _ _ hmem)
        (by simp [runSubmodules_no_publish])
    · split at hmem
      · exact absurd (mem_publishCall_has _ _ hmem)
          (by simp [runSubmodules_no_publish])
      · split at hmem
        · split at hmem
          · exact absurd (mem_publishCall_has _ _ hmem) (by
              simp [hasPublishCall_append, runSubmodules_no_publish,
                pushUpdated_no_publish])
          · rcases List.mem_append.mp hmem with h | h
            · rcases List.mem_append.mp h with h2 | h2
              · exact absurd (mem_publishCall_has _ _ h2)
                  (by simp [runSubmodules_no_publish])
              · exact absurd (mem_publishCall_has _ _ h2)
                  (by simp [pushUpdated_no_publish])
            · rcases List.mem_cons.mp h with h2 | h2
              · injection h2 with h3
              · exact absurd (mem_publishCall_has _ _ h2)
                  (by simp [pub_no_publish])
        · exact absurd (mem_publishCall_has _ _ hmem)
            (by simp [runSubmodules_no_publish])

/-- Every submodule push a run performs targets an updated module: its
path and branch come from a result selected by the updated-modules
filter. -/
lemma update_all_push_arg (dry : Bool) (mods : List (SubSpec × SubEnv))
    (pushOk : String → Bool) (senv : SuperEnv) (p b : String) :
    Action.pushSubmodule p b ∈ (update_all_submodules dry mods pushOk senv).actions →
      ∃ r ∈ updatedModules (runSubmodules mods).results, r.path = p ∧ r.branch = b := by
  intro hmem
  unfold update_all_submodules at hmem
  dsimp only at hmem
  split at hmem
  · simp at hmem
  · split at hmem
    · exact absurd (mem_pushSubmodule_has _ _ _ hmem)
        (by simp [runSubmodules_no_subpush])
    · split at hmem
      · exact absurd (mem_pushSubmodule_has _ _ _ hmem)
          (by simp [runSubmodules_no_subpush])
      · split at hmem
        · split at hmem
          · rcases List.mem_append.mp hmem with h | h
            · exact absurd (mem_pushSubmodule_has _ _ _ h)
                (by simp [runSubmodules_no_subpush])
            · exact pushUpdated_mem pushOk _ p b h
          · rcases List.mem_append.mp hmem with h | h
            · rcases List.mem_append.mp h with h2 | h2
              · exact absurd (mem_pushSubmodule_has _ _ _ h2)
                  (by simp [runSubmodules_no_subpush])
              · exact pushUpdated_mem pushOk _ p b h2
            · rcases List.mem_cons.mp h with h2 | h2
              · injection h2
              · exact absurd (mem_pushSubmodule_has _ _ _ h2)
                  (by simp [pub_no_subpush])
        · exact absurd (mem_pushSubmodule_has _ _ _ hmem)
            (by simp [runSubmodules_no_subpush])


/-- The exact text the source prints for each log event (apostrophes of the
original f-strings elided; exception payloads abbreviated).  `log_error`
events carry the `::error::` workflow prefix the source adds (lines 79-80). -/
def renderLog : LogLine → String
  | LogLine.group n p => "::group::Processing submodule " ++ n ++ " at " ++ p
  | LogLine.endGroup => "::endgroup::"
  | LogLine.skippingUninitialized p => "Skipping " ++ p ++ " (not initialized?)"
  | LogLine.couldNotGetOrigin p => "Could not get origin URL for " ++ p
  | LogLine.originUrlIs u => "Origin URL: " ++ u
  | LogLine.failedFetchOrigin _ => "Failed to fetch from origin"
  | LogLine.workingBranch b => "Working with branch: " ++ b
  | LogLine.usingExistingUpstream u => "Using existing upstream: " ++ u
  | LogLine.nonGitHubGitLabOrigin => "Non-GitHub/GitLab origin; skipping upstream discovery"
  | LogLine.addedUpstream u => "Added upstream: " ++ u
  | LogLine.noUpstreamSkipMerge p => "No upstream configured; skipping merge for " ++ p
  | LogLine.fetchingUpstream u b => "Fetching upstream (" ++ u ++ "), default branch " ++ b
  | LogLine.failedFetchUpstream _ => "Failed to fetch upstream"
  | LogLine.warnUpstreamRefMissing b =>
      "Warning: upstream/" ++ b ++ " not found after fetch. Looking for candidates..."
  | LogLine.fallingBack b => "Falling back to upstream/" ++ b
  | LogLine.errUpstreamBranchMissing b p =>
      "::error::Upstream branch " ++ b ++ " not found for " ++ p ++ "."
  | LogLine.merging ub lb => "Merging upstream/" ++ ub ++ " into " ++ lb
  | LogLine.errMergeConflict p =>
      "::error::Merge conflict in submodule " ++ p ++ ". Please resolve manually."
  | LogLine.mergeErrorDetails p => "Full merge error details for " ++ p
  | LogLine.pushingToOrigin b => "Pushing to origin " ++ b
  | LogLine.failedPushOrigin => "Failed to push to origin"
  | LogLine.noSubmodulesFound => "No submodules found."
  | LogLine.dryRunReport => "Dry run: reporting only; push and PR skipped"
  | LogLine.noMdChanges => "No .md changes detected across submodules; skipping push and PR."
  | LogLine.failedCheckoutNewBranch b => "Failed to create/switch to branch " ++ b
  | LogLine.noPathsToStage => "No submodule paths detected to stage in superproject."
  | LogLine.failedAddPath p => "Failed to add path " ++ p ++ " to commit"
  | LogLine.nothingToCommit => "Superproject has no changes to commit; skipping commit/PR."
  | LogLine.failedCommit => "Failed to commit superproject changes"
  | LogLine.dryRunWouldPush =>
      "Dry run: would push to rolling branch auto/submodule-updates and open or update PR"
  | LogLine.failedPushBranch b => "Failed to push branch " ++ b
  | LogLine.originNotGitHub => "Origin is not a GitHub URL; skipping PR creation."
  | LogLine.updatedExistingPr u => "Updated existing PR: " ++ u
  | LogLine.openedPr u => "Opened PR: " ++ u
  | LogLine.noGhToken => "GH_API_TOKEN not set; cannot create GitHub PR."
  | LogLine.prCreationFailed => "GitHub PR creation failed"
  | LogLine.failedOpenPr => "Failed to open PR via GitHub API."
  | LogLine.dryRunWouldPost => "Dry run: would post to RedGuides thread"

/-- Recognize a merge attempt. -/
def isMergeAct : Action → Bool
  | Action.merge _ => true
  | _ => false

/-- Recognize a hosting-API fork-parent discovery call or the registration
of a discovered upstream remote. -/
def isDiscoveryAct : Action → Bool
  | Action.discoverGitHub => true
  | Action.discoverGitLab => true
  | Action.addUpstreamRemote _ => true
  | _ => false

lemma mergePhase_no_upstream (env : SubEnv) (n p lb : String)
    (acts : List Action) (lgs : List LogLine) :
    mergePhase env n p lb "" acts lgs =
      successOutcome env n p lb "" acts (lgs ++ [LogLine.noUpstreamSkipMerge p]) := by
  unfold mergePhase
  simp

/-- Whatever path the merge phase takes, the result records the resolved
upstream URL it was entered with. -/
lemma mergePhase_result_uurl (env : SubEnv) (n p lb uu : String)
    (acts : List Action) (lgs : List LogLine) :
    (mergePhase env n p lb uu acts lgs).result.upstream_url = uu := by
  unfold mergePhase mergeFinish
  dsimp only
  repeat' split
  all_goals rfl

lemma mergeFinish_logs_mono (env : SubEnv) (n p lb uu ub : String)
    (acts : List Action) (lgs : List LogLine) (q : LogLine → Bool)
    (h : lgs.any q = true) :
    (mergeFinish env n p lb uu ub acts lgs).logs.any q = true := by
  unfold mergeFinish successOutcome
  dsimp only
  split <;> simp [List.any_append, h]

lemma upstreamResolution_existing (env : SubEnv) (u uu : String)
    (h : env.existingUpstreamUrl = some uu) :
    upstreamResolution env u = (uu, [], [LogLine.usingExistingUpstream uu]) := by
  unfold upstreamResolution
  rw [h]

lemma upstreamResolution_discovery_empty (env : SubEnv) (u : String)
    (hex : env.existingUpstreamUrl = none)
    (hgh : strContains u "github.com" = true → env.githubDiscovery.getD "" = "")
    (hgl : strContains u "gitlab.com" = true → env.gitlabDiscovery.getD "" = "") :
    (upstreamResolution env u).1 = "" := by
  unfold upstreamResolution
  rw [hex]
  dsimp only
  split_ifs <;> simp_all

/-- With the filesystem, origin remote and origin fetch all healthy, the
reconciler body is exactly the merge phase over the negotiated branch and
the resolved upstream. -/
lemma updateSingleCore_reach_merge (env : SubEnv) (n p d u : String)
    (h1 : env.initialized = true) (h2 : env.originUrl = some u)
    (h3 : env.originFetchOk = true) :
    updateSingleCore env n p d =
      mergePhase env n p (determine_working_branch env d) (upstreamResolution env u).1
        (Action.fetchOrigin :: ensure_checked_out_branch env (determine_working_branch env d)
          ++ (upstreamResolution env u).2.1)
        ([LogLine.originUrlIs u, LogLine.workingBranch (determine_working_branch env d)]
          ++ (upstreamResolution env u).2.2) := by
  unfold updateSingleCore
  rw [h2]
  simp [h1, h3]

lemma mergeFinish_fail_log (env : SubEnv) (n p lb uu ub : String)
    (acts : List Action) (lgs : List LogLine) :
    (mergeFinish env n p lb uu ub acts lgs).ok = false →
      (mergeFinish env n p lb uu ub acts lgs).logs.any isFailLog = true := by
  unfold mergeFinish
  dsimp only
  split
  · intro _
    simp [List.any_append, isFailLog]
  · intro h
    simp [successOutcome] at h

lemma mergePhase_fail_log (env : SubEnv) (n p lb uu : String)
    (acts : List Action) (lgs : List LogLine) :
    (mergePhase env n p lb uu acts lgs).ok = false →
      (mergePhase env n p lb uu acts lgs).logs.any isFailLog = true := by
  unfold mergePhase
  dsimp only
  split
  · split
    · intro _
      simp [List.any_append, isFailLog]
    · split
      · apply mergeFinish_fail_log
      · split
        · split
          · apply mergeFinish_fail_log
          · intro _
            simp [List.any_append, isFailLog]
        · intro _
          simp [List.any_append, isFailLog]
  · intro h
    simp [successOutcome] at h

lemma updateSingleCore_fail_log (env : SubEnv) (n p d : String) :
    (updateSingleCore env n p d).ok = false →
      (updateSingleCore env n p d).logs.any isFailLog = true := by
  unfold updateSingleCore
  dsimp only
  split
  · intro h
    simp at h
  · split
    · intro _
      simp [isFailLog]
    · split
      · intro _
        simp [isFailLog]
      · apply mergePhase_fail_log


lemma mem_any_true {q : Action → Bool} {a : Action} {tr : List Action}
    (hmem : a ∈ tr) (ha : q a = true) : tr.any q = true :=
  List.any_eq_true.mpr ⟨a, hmem, ha⟩

/-- With an `upstream` remote already configured, a reconciliation attempts
no discovery call and registers no remote. -/
lemma no_discovery_of_existing (env : SubEnv) (n p d uu : String)
    (hex : env.existingUpstreamUrl = some uu) :
    (update_single_submodule env n p d).actions.any isDiscoveryAct = false := by
  show (updateSingleCore env n p d).actions.any isDiscoveryAct = false
  unfold updateSingleCore
  dsimp only
  split
  · rfl
  · split
    · rfl
    · split
      · rfl
      · rw [mergePhase_any isDiscoveryAct rfl (fun _ => rfl)]
        rw [upstreamResolution_existing env _ uu hex]
        simp [List.any_cons, List.any_append, isDiscoveryAct,
          ensure_checked_out_branch_any isDiscoveryAct (fun _ _ => rfl)]

/-- A registration of an upstream remote in the resolution step can only
come from a successful discovery on a clone with no `upstream` remote. -/
lemma upstreamResolution_add_mem (env : SubEnv) (u url : String) :
    Action.addUpstreamRemote url ∈ (upstreamResolution env u).2.1 →
      env.existingUpstreamUrl = none ∧ url ≠ "" ∧
      (env.githubDiscovery = some url ∨ env.gitlabDiscovery = some url) := by
  unfold upstreamResolution
  dsimp only
  split
  · intro h
    simp at h
  · rename_i heq
    split_ifs with hne hgh hgl hne2 hgl2 <;> intro h <;> simp_all
    · cases hgd : env.githubDiscovery with
      | none => rw [hgd] at h; simp at h; simp_all
      | some v => rw [hgd] at h; simp at h; simp_all
    · cases hgd : env.gitlabDiscovery with
      | none => rw [hgd] at h; simp at h; simp_all
      | some v => rw [hgd] at h; simp at h; simp_all

/-- Every discovery-related action of a reconciliation happens on a clone
with no configured `upstream` remote, and a remote registration carries a
nonempty URL produced by the GitHub or GitLab discovery oracle. -/
lemma update_single_discovery_mem (env : SubEnv) (n p d : String) (a : Action)
    (hmem : a ∈ (update_single_submodule env n p d).actions)
    (ha : isDiscoveryAct a = true) : env.existingUpstreamUrl = none := by
  cases hex : env.existingUpstreamUrl with
  | none => rfl
  | some uu =>
    have := no_discovery_of_existing env n p d uu hex
    rw [mem_any_true hmem ha] at this
    exact absurd this (by simp)

lemma update_single_add_mem (env : SubEnv) (n p d url : String)
    (hmem : Action.addUpstreamRemote url ∈ (update_single_submodule env n p d).actions) :
    env.existingUpstreamUrl = none ∧ url ≠ "" ∧
      (env.githubDiscovery = some url ∨ env.gitlabDiscovery = some url) := by
  have hmem2 : Action.addUpstreamRemote url ∈ (updateSingleCore env n p d).actions := hmem
  have hex : env.existingUpstreamUrl = none :=
    update_single_discovery_mem env n p d _ hmem rfl
  revert hmem2
  unfold updateSingleCore
  dsimp only
  split
  · intro h
    simp at h
  · split
    · intro h
      simp at h
    · split
      · intro h
        simp at h
      · rename_i ou hou hfo
        intro h
        have hq := mergePhase_any (fun a => a == Action.addUpstreamRemote url)
          (by simp) (fun r => by simp) env n p (determine_working_branch env d)
          (upstreamResolution env ou).1
          (Action.fetchOrigin :: ensure_checked_out_branch env (determine_working_branch env d)
            ++ (upstreamResolution env ou).2.1)
          ([LogLine.originUrlIs ou,
            LogLine.workingBranch (determine_working_branch env d)]
            ++ (upstreamResolution env ou).2.2)
        rw [mem_any_true h (by simp)] at hq
        have hco := ensure_checked_out_branch_any
          (fun a => a == Action.addUpstreamRemote url) (fun _ _ => by simp)
          env (determine_working_branch env d)
        have hur : (upstreamResolution env ou).2.1.any
            (fun a => a == Action.addUpstreamRemote url) = true := by
          rcases (List.any_eq_true.mp hq.symm) with ⟨x, hx, hxq⟩
          rcases List.mem_cons.mp hx with h1 | h1
          · subst h1; simp at hxq
          · rcases List.mem_append.mp h1 with h2 | h2
            · have hT := @mem_any_true (fun a => a == Action.addUpstreamRemote url) x _ h2 hxq
              rw [hT] at hco
              exact Bool.noConfusion hco
            · exact @mem_any_true (fun a => a == Action.addUpstreamRemote url) x _ h2 hxq
        rcases List.any_eq_true.mp hur with ⟨x, hx, hxq⟩
        have hxe : x = Action.addUpstreamRemote url := by simpa using hxq
        subst hxe
        exact upstreamResolution_add_mem env ou url hx


lemma candidate_main (refs : List String) (h : "upstream/main" ∈ refs) :
    upstreamFallbackCandidate refs = some "main" := by
  unfold upstreamFallbackCandidate
  rw [if_pos h]

lemma candidate_master (refs : List String) (h1 : "upstream/main" ∉ refs)
    (h2 : "upstream/master" ∈ refs) :
    upstreamFallbackCandidate refs = some "master" := by
  unfold upstreamFallbackCandidate
  rw [if_neg h1, if_pos h2]

lemma candidate_first (r0 : String) (rs : List String)
    (h1 : "upstream/main" ∉ (r0 :: rs)) (h2 : "upstream/master" ∉ (r0 :: rs))
    (hs : strContains r0 "/" = true) :
    upstreamFallbackCandidate (r0 :: rs) = some (afterFirstSlash r0) := by
  unfold upstreamFallbackCandidate
  rw [if_neg h1, if_neg h2]
  simp [hs]

lemma candidate_nil : upstreamFallbackCandidate [] = none := by
  simp [upstreamFallbackCandidate]

lemma mergePhase_fallback_merge (env : SubEnv) (n p lb uu : String)
    (acts : List Action) (lgs : List LogLine) (c : String)
    (h5 : uu ≠ "") (h6 : env.upstreamFetchOk = true)
    (h7 : ("upstream/" ++ get_upstream_default_branch env) ∉ env.upstreamRefNames)
    (hc : upstreamFallbackCandidate env.upstreamRefNames = some c)
    (hne : c ≠ "") (hne2 : c ≠ get_upstream_default_branch env) :
    mergePhase env n p lb uu acts lgs =
      mergeFinish env n p lb uu c acts
        ((lgs ++ [LogLine.fetchingUpstream uu (get_upstream_default_branch env)]) ++
          [LogLine.warnUpstreamRefMissing (get_upstream_default_branch env),
           LogLine.fallingBack c]) := by
  unfold mergePhase
  dsimp only
  rw [if_pos h5, h6]
  simp only [Bool.true_eq_false, if_false]
  rw [if_neg h7, hc]
  dsimp only
  rw [if_pos ⟨hne, hne2⟩]

lemma mergePhase_fallback_none (env : SubEnv) (n p lb uu : String)
    (acts : List Action) (lgs : List LogLine)
    (h5 : uu ≠ "") (h6 : env.upstreamFetchOk = true)
    (h7 : ("upstream/" ++ get_upstream_default_branch env) ∉ env.upstreamRefNames)
    (hc : upstreamFallbackCandidate env.upstreamRefNames = none) :
    (mergePhase env n p lb uu acts lgs).ok = false ∧
    LogLine.errUpstreamBranchMissing (get_upstream_default_branch env) p ∈
      (mergePhase env n p lb uu acts lgs).logs := by
  unfold mergePhase
  dsimp only
  rw [if_pos h5, h6]
  simp only [Bool.true_eq_false, if_false]
  rw [if_neg h7, hc]
  dsimp only
  exact ⟨rfl, by simp⟩

lemma mergePhase_fallback_warn (env : SubEnv) (n p lb uu : String)
    (acts : List Action) (lgs : List LogLine)
    (h5 : uu ≠ "") (h6 : env.upstreamFetchOk = true)
    (h7 : ("upstream/" ++ get_upstream_default_branch env) ∉ env.upstreamRefNames) :
    (mergePhase env n p lb uu acts lgs).logs.any isWarnLog = true := by
  unfold mergePhase
  dsimp only
  rw [if_pos h5, h6]
  simp only [Bool.true_eq_false, if_false]
  rw [if_neg h7]
  cases hc : upstreamFallbackCandidate env.upstreamRefNames with
  | none => simp [List.any_append, isWarnLog]
  | some c =>
    dsimp only
    split
    · apply mergeFinish_logs_mono
      simp [List.any_append, isWarnLog]
    · simp [List.any_append, isWarnLog]

/-- With no configured and no discovered upstream, the reconciler attempts
no merge on any path. -/
lemma update_single_no_merge (env : SubEnv) (n p d u : String)
    (h2 : env.originUrl = some u)
    (hex : env.existingUpstreamUrl = none)
    (hgh : strContains u "github.com" = true → env.githubDiscovery.getD "" = "")
    (hgl : strContains u "gitlab.com" = true → env.gitlabDiscovery.getD "" = "") :
    (update_single_submodule env n p d).actions.any isMergeAct = false := by
  show (updateSingleCore env n p d).actions.any isMergeAct = false
  unfold updateSingleCore
  dsimp only
  split
  · rfl
  · rw [h2]
    dsimp only
    split
    · rfl
    · rw [upstreamResolution_discovery_empty env u hex hgh hgl, mergePhase_no_upstream]
      rw [successOutcome_actions]
      simp [List.any_cons, List.any_append, isMergeAct,
        ensure_checked_out_branch_any isMergeAct (fun _ _ => rfl),
        upstreamResolution_any isMergeAct rfl rfl (fun _ => rfl)]


/-- A healthy baseline submodule environment: initialized clone, reachable
non-GitHub/GitLab origin, successful fetch, no upstream anywhere, nothing
moved. -/
def sampleEnv : SubEnv :=
  { initialized := true
    preHead := ""
    originUrl := some "https://example.org/r.git"
    originFetchOk := true
    remoteShowOriginOut := none
    activeBranch := none
    originRefNames := []
    existingUpstreamUrl := none
    githubDiscovery := none
    gitlabDiscovery := none
    lsRemoteOut := none
    upstreamRemoteUrlForQuery := none
    ghDefaultBranch := none
    glDefaultBranch := none
    upstreamFetchOk := true
    upstreamRefNames := []
    mergeOk := true
    aheadRaw := none
    diffRaw := none
    postHead := ""
    sessionDiffRaw := none }

/-- A canonical-repo run in which the checkout fast-forwarded the branch
(HEAD moved, zero commits ahead of origin) and the session range contains a
markdown file. -/
def mdSessionEnv : SubEnv :=
  { sampleEnv with
    preHead := "aaa"
    postHead := "bbb"
    sessionDiffRaw := some ["README.md"]
    originRefNames := ["origin/main"] }

/-- An environment whose origin fetch fails. -/
def fetchFailEnv : SubEnv :=
  { sampleEnv with originFetchOk := false }

/-- The manifest entry of the markdown-bearing submodule. -/
def mdSpec : SubSpec := ⟨"modA", "modules/a", ""⟩

/-- The manifest entry of the failing submodule. -/
def failSpec : SubSpec := ⟨"modB", "modules/b", "dev"⟩

/-- A superproject environment in which everything up to the push succeeds
but the PR step has nothing to work with: no GitHub token and a
non-GitHub origin. -/
def sampleSuperEnv : SuperEnv :=
  { remoteShowOut := some ["  HEAD branch: main"]
    originRefs := []
    checkoutNewOk := true
    stageOk := fun _ => true
    dirty := true
    commitOk := true
    pushOk := true
    originUrl := some "https://example.org/x.git"
    ghToken := ""
    findPrApi := none
    createPrApi := none }


/-- C1, counterexample: the claimed "if and only if" fails on the code as
stated.  In a dry run (`--dry-run` / `--no-push`) a submodule result whose
session-range changed files contain `README.md` satisfies the markdown
gate, yet the Fleet Orchestrator never invokes the Publication Manager
(source lines 707-716 return before the publication branch). -/
theorem publish_gate_iff_fails_on_dry_run :
    anyMdChanged (runSubmodules [(mdSpec, mdSessionEnv)]).results = true ∧
    hasPublishCall (update_all_submodules true [(mdSpec, mdSessionEnv)]
      (fun _ => true) sampleSuperEnv).actions = false := by
  constructor
  · decide
  · decide

/-- C1, amended: the markdown gate is necessary unconditionally — with no
`.md` path in any changed-file set the Publication Manager is never
invoked, in any mode, regardless of ahead counts — and it is sufficient in
a live (non-dry-run) run in which the reconciliation loop succeeded and
every updated module's push succeeds: there, publication is invoked
exactly when some submodule's origin-range or session-range changed files
contain a `.md` path. -/
theorem publish_gate_amended (dry : Bool) (mods : List (SubSpec × SubEnv))
    (pushOk : String → Bool) (senv : SuperEnv) :
    (anyMdChanged (runSubmodules mods).results = false →
      hasPublishCall (update_all_submodules dry mods pushOk senv).actions = false) ∧
    (dry = false → (runSubmodules mods).ok = true →
      (∀ r ∈ updatedModules (runSubmodules mods).results, pushOk r.path = true) →
      hasPublishCall (update_all_submodules dry mods pushOk senv).actions =
        anyMdChanged (runSubmodules mods).results) := by
  refine ⟨fun hmd => ?_, fun hdry hok hpush => ?_⟩
  · rw [update_all_publish_char, hmd]
    simp
  · rw [update_all_publish_char, hdry, hok]
    have hp : (pushUpdated pushOk (updatedModules (runSubmodules mods).results)).ok = true :=
      (pushUpdated_ok_iff pushOk _).mpr hpush
    rw [hp]
    cases mods with
    | nil => simp [runSubmodules, anyMdChanged]
    | cons a l => simp

/-- C1, witness: a live run over the markdown-bearing submodule, with every
push succeeding, in which the gate and the publication invocation agree
(both hold). -/
theorem publish_gate_amended_witness :
    hasPublishCall (update_all_submodules false [(mdSpec, mdSessionEnv)]
      (fun _ => true) sampleSuperEnv).actions =
      anyMdChanged (runSubmodules [(mdSpec, mdSessionEnv)]).results :=
  (publish_gate_amended false [(mdSpec, mdSessionEnv)] (fun _ => true) sampleSuperEnv).2
    rfl (by decide) (fun r _ => rfl)


/-- C2: the run is fail-fast.  When every submodule before some failing one
reconciles with `ok = true` and that submodule returns `ok = false`, the
orchestrator returns `False`, its trace is exactly the trace of the prefix
plus the failing module (no later submodule is processed), no submodule is
pushed, the Publication Manager is never invoked, and the process exits
with code `1`. -/
theorem fail_fast_aborts_run (dry : Bool) (pre : List (SubSpec × SubEnv))
    (spec : SubSpec) (env : SubEnv) (rest : List (SubSpec × SubEnv))
    (pushOk : String → Bool) (senv : SuperEnv)
    (hpre : ∀ q ∈ pre, (update_single_submodule q.2 q.1.name q.1.path q.1.branch).ok = true)
    (hfail : (update_single_submodule env spec.name spec.path spec.branch).ok = false) :
    (update_all_submodules dry (pre ++ (spec, env) :: rest) pushOk senv).ok = false ∧
    (update_all_submodules dry (pre ++ (spec, env) :: rest) pushOk senv).actions =
      (runSubmodules (pre ++ [(spec, env)])).actions ∧
    hasSubmodulePush
      (update_all_submodules dry (pre ++ (spec, env) :: rest) pushOk senv).actions = false ∧
    hasPublishCall
      (update_all_submodules dry (pre ++ (spec, env) :: rest) pushOk senv).actions = false ∧
    mainExitCode dry (pre ++ (spec, env) :: rest) pushOk senv = 1 := by
  obtain ⟨hok, hacts⟩ := runSubmodules_fail_fast pre spec env rest hpre hfail
  have hne : ((pre ++ (spec, env) :: rest).isEmpty) = false := by
    cases pre <;> simp
  have heq : update_all_submodules dry (pre ++ (spec, env) :: rest) pushOk senv =
      ⟨false, (runSubmodules (pre ++ (spec, env) :: rest)).actions,
       (runSubmodules (pre ++ (spec, env) :: rest)).logs⟩ := by
    unfold update_all_submodules
    simp [hne, hok]
  refine ⟨by rw [heq], by rw [heq]; exact hacts, ?_, ?_, ?_⟩
  · rw [heq]
    exact runSubmodules_no_subpush _
  · rw [heq]
    exact runSubmodules_no_publish _
  · unfold mainExitCode
    rw [show build_config_dry_run (!dry) = dry by simp [build_config_dry_run]]
    rw [heq]
    rfl

/-- C2, witness: a two-submodule manifest whose first submodule fails its
origin fetch; the run exits `1`. -/
theorem fail_fast_aborts_run_witness :
    mainExitCode false ([] ++ (failSpec, fetchFailEnv) :: [(mdSpec, mdSessionEnv)])
      (fun _ => true) sampleSuperEnv = 1 :=
  (fail_fast_aborts_run false [] failSpec fetchFailEnv [(mdSpec, mdSessionEnv)]
    (fun _ => true) sampleSuperEnv (fun q hq => absurd hq (by simp))
    (by decide)).2.2.2.2

/-- C3: the updated-modules list the orchestrator computes is exactly the
results with `aheadCount > 0` or `hadHeadChange`, and it is precisely what
reaches the push loop and the Publication Manager: every `publishCall`
carries that list, and every submodule push targets the path and branch of
one of its members.  A result with `aheadCount = 0` and `hadHeadChange =
true` (a checkout fast-forward) therefore participates, and one with
`aheadCount = 0` and no head change does not. -/
theorem updated_modules_selection (dry : Bool) (mods : List (SubSpec × SubEnv))
    (pushOk : String → Bool) (senv : SuperEnv) :
    updatedModules (runSubmodules mods).results =
      (runSubmodules mods).results.filter
        (fun r => decide (0 < r.ahead_count) || r.had_head_change) ∧
    (∀ l, Action.publishCall l ∈ (update_all_submodules dry mods pushOk senv).actions →
      l = updatedModules (runSubmodules mods).results) ∧
    (∀ p b, Action.pushSubmodule p b ∈ (update_all_submodules dry mods pushOk senv).actions →
      ∃ r ∈ updatedModules (runSubmodules mods).results, r.path = p ∧ r.branch = b) :=
  ⟨updatedModules_runSubmodules mods,
   fun l => update_all_publish_arg dry mods pushOk senv l,
   fun p b => update_all_push_arg dry mods pushOk senv p b⟩

/-- C3, witness: in the live run over the markdown-bearing submodule, the
recorded push of `modules/a` on `main` comes from an updated module with
that path and branch (here: a fast-forwarded module with `aheadCount = 0`
and `hadHeadChange = true`). -/
theorem updated_modules_selection_witness :
    ∃ r ∈ updatedModules (runSubmodules [(mdSpec, mdSessionEnv)]).results,
      r.path = "modules/a" ∧ r.branch = "main" :=
  (updated_modules_selection false [(mdSpec, mdSessionEnv)]
    (fun _ => true) sampleSuperEnv).2.2 "modules/a" "main" (by decide)


/-- C4: reconcile never throws.  The embedding of
`update_single_submodule` is a total function of the submodule environment
— every anticipated failure (missing origin, origin-fetch failure,
upstream-fetch failure, missing upstream branch, merge conflict) is an
ordinary `ok = false` return — and every `ok = false` outcome carries one
of the five failure log lines rather than an exception. -/
theorem reconcile_never_throws (env : SubEnv) (n p d : String) :
    (update_single_submodule env n p d).ok = false →
      (update_single_submodule env n p d).logs.any isFailLog = true := by
  intro h
  have hc := updateSingleCore_fail_log env n p d h
  show (LogLine.group n p ::
      ((updateSingleCore env n p d).logs ++ [LogLine.endGroup])).any isFailLog = true
  simp [List.any_cons, List.any_append, hc, isFailLog]

/-- C4, witness: a failed origin fetch yields `ok = false` with a failure
log line. -/
theorem reconcile_never_throws_witness :
    (update_single_submodule fetchFailEnv "modB" "modules/b" "dev").logs.any isFailLog
      = true :=
  reconcile_never_throws fetchFailEnv "modB" "modules/b" "dev" (by decide)

/-- A submodule environment that reaches the upstream-branch fallback: an
existing upstream remote whose advertised default branch (`develop`, from
`ls-remote --symref`) is absent from the fetched refs, while
`upstream/main` was fetched. -/
def fallbackEnv : SubEnv :=
  { sampleEnv with
    existingUpstreamUrl := some "git@github.com:up/r.git"
    lsRemoteOut := some ["ref: refs/heads/develop\tHEAD"]
    upstreamRefNames := ["upstream/main"] }

/-- C5: the upstream-branch fallback order.  When the reconciliation
reaches the upstream phase (initialized clone, origin reachable and
fetched, an existing upstream remote with a nonempty URL, a successful
upstream fetch) and the resolved default branch is absent from the fetched
refs, the engine merges `upstream/main` when that ref was fetched, else
`upstream/master` when that was, else the branch of the first fetched ref
(its name after the remote prefix); when no ref was fetched at all the
submodule reconciliation fails (`ok = false`) with the missing-branch
error logged; in every such case the fallback warning is logged. -/
theorem upstream_branch_fallback_order (env : SubEnv) (n p d u uu : String)
    (h1 : env.initialized = true) (h2 : env.originUrl = some u)
    (h3 : env.originFetchOk = true)
    (h4 : env.existingUpstreamUrl = some uu) (h5 : uu ≠ "")
    (h6 : env.upstreamFetchOk = true)
    (h7 : ("upstream/" ++ get_upstream_default_branch env) ∉ env.upstreamRefNames) :
    ("upstream/main" ∈ env.upstreamRefNames →
      Action.merge "upstream/main" ∈ (update_single_submodule env n p d).actions) ∧
    ("upstream/main" ∉ env.upstreamRefNames → "upstream/master" ∈ env.upstreamRefNames →
      Action.merge "upstream/master" ∈ (update_single_submodule env n p d).actions) ∧
    (∀ r0 rs, env.upstreamRefNames = r0 :: rs →
      "upstream/main" ∉ env.upstreamRefNames → "upstream/master" ∉ env.upstreamRefNames →
      strContains r0 "/" = true → afterFirstSlash r0 ≠ "" →
      "upstream/" ++ afterFirstSlash r0 = r0 →
      Action.merge r0 ∈ (update_single_submodule env n p d).actions) ∧
    (env.upstreamRefNames = [] →
      (update_single_submodule env n p d).ok = false ∧
      LogLine.errUpstreamBranchMissing (get_upstream_default_branch env) p ∈
        (update_single_submodule env n p d).logs) ∧
    (update_single_submodule env n p d).logs.any isWarnLog = true := by
  have hcore : updateSingleCore env n p d =
      mergePhase env n p (determine_working_branch env d) uu
        (Action.fetchOrigin ::
          ensure_checked_out_branch env (determine_working_branch env d) ++ [])
        ([LogLine.originUrlIs u, LogLine.workingBranch (determine_working_branch env d)]
          ++ [LogLine.usingExistingUpstream uu]) := by
    rw [updateSingleCore_reach_merge env n p d u h1 h2 h3,
      upstreamResolution_existing env u uu h4]
  refine ⟨fun hmain => ?_, fun hmain hmaster => ?_,
    fun r0 rs he hmain hmaster hslash hne hr0 => ?_, fun he => ?_, ?_⟩
  · have hub : get_upstream_default_branch env ≠ "main" := by
      intro e
      rw [e] at h7
      exact h7 hmain
    show Action.merge "upstream/main" ∈ (updateSingleCore env n p d).actions
    rw [hcore,
      mergePhase_fallback_merge env n p (determine_working_branch env d) uu _ _ "main"
        h5 h6 h7 (candidate_main _ hmain) (by decide) (fun e => hub e.symm),
      mergeFinish_actions]
    have hm : ("upstream/" ++ "main" : String) = "upstream/main" := rfl
    rw [hm]
    simp
  · have hub : get_upstream_default_branch env ≠ "master" := by
      intro e
      rw [e] at h7
      exact h7 hmaster
    show Action.merge "upstream/master" ∈ (updateSingleCore env n p d).actions
    rw [hcore,
      mergePhase_fallback_merge env n p (determine_working_branch env d) uu _ _ "master"
        h5 h6 h7 (candidate_master _ hmain hmaster) (by decide) (fun e => hub e.symm),
      mergeFinish_actions]
    have hm : ("upstream/" ++ "master" : String) = "upstream/master" := rfl
    rw [hm]
    simp
  · have hc : upstreamFallbackCandidate env.upstreamRefNames = some (afterFirstSlash r0) := by
      rw [he]
      exact candidate_first r0 rs (he ▸ hmain) (he ▸ hmaster) hslash
    have hne2 : afterFirstSlash r0 ≠ get_upstream_default_branch env := by
      intro e
      apply h7
      have hx : ("upstream/" ++ get_upstream_default_branch env) = r0 := by
        rw [← e, hr0]
      rw [hx, he]
      exact List.mem_cons_self ..
    show Action.merge r0 ∈ (updateSingleCore env n p d).actions
    rw [hcore,
      mergePhase_fallback_merge env n p (determine_working_branch env d) uu _ _
        (afterFirstSlash r0) h5 h6 h7 hc hne hne2,
      mergeFinish_actions, hr0]
    simp
  · have hc : upstreamFallbackCandidate env.upstreamRefNames = none := by
      rw [he]
      exact candidate_nil
    have hm := mergePhase_fallback_none env n p (determine_working_branch env d) uu
      (Action.fetchOrigin ::
        ensure_checked_out_branch env (determine_working_branch env d) ++ [])
      ([LogLine.originUrlIs u, LogLine.workingBranch (determine_working_branch env d)]
        ++ [LogLine.usingExistingUpstream uu]) h5 h6 h7 hc
    constructor
    · show (updateSingleCore env n p d).ok = false
      rw [hcore]
      exact hm.1
    · show LogLine.errUpstreamBranchMissing (get_upstream_default_branch env) p ∈
        LogLine.group n p :: ((updateSingleCore env n p d).logs ++ [LogLine.endGroup])
      apply List.mem_cons_of_mem
      apply List.mem_append_left
      rw [hcore]
      exact hm.2
  · have hw : (updateSingleCore env n p d).logs.any isWarnLog = true := by
      rw [hcore]
      exact mergePhase_fallback_warn env n p (determine_working_branch env d) uu _ _
        h5 h6 h7
    show (LogLine.group n p ::
        ((updateSingleCore env n p d).logs ++ [LogLine.endGroup])).any isWarnLog = true
    simp [List.any_cons, List.any_append, hw, isWarnLog]

/-- C5, witness: with advertised branch `develop` absent and
`upstream/main` fetched, the engine merges `upstream/main`. -/
theorem upstream_branch_fallback_order_witness :
    Action.merge "upstream/main" ∈
      (update_single_submodule fallbackEnv "modC" "modules/c" "").actions :=
  (upstream_branch_fallback_order fallbackEnv "modC" "modules/c" ""
    "https://example.org/r.git" "git@github.com:up/r.git"
    rfl rfl rfl rfl (by decide) rfl (by decide)).1 (by decide)

/-- C6: working-branch resolution precedence.  The declared branch wins
when nonempty; otherwise the origin-advertised HEAD branch when the
`remote show` query succeeds and yields one; otherwise the currently
checked-out branch; otherwise the literal `main`. -/
theorem working_branch_precedence (env : SubEnv) (desired : String) :
    (desired ≠ "" → determine_working_branch env desired = desired) ∧
    (desired = "" →
      ∀ b, env.remoteShowOriginOut.bind findHeadBranch = some b →
        determine_working_branch env desired = b) ∧
    (desired = "" → env.remoteShowOriginOut.bind findHeadBranch = none →
      ∀ b, env.activeBranch = some b → determine_working_branch env desired = b) ∧
    (desired = "" → env.remoteShowOriginOut.bind findHeadBranch = none →
      env.activeBranch = none → determine_working_branch env desired = "main") := by
  unfold determine_working_branch
  refine ⟨fun h => by rw [if_pos h],
    fun h b hb => ?_, fun h hn b hb => ?_, fun h hn ha => ?_⟩
  · rw [if_neg (by simp [h]), hb]
  · rw [if_neg (by simp [h]), hn, hb]
  · rw [if_neg (by simp [h]), hn, ha]

/-- C6, witness: a nonempty declared branch is returned verbatim, and on
the baseline environment (query fails, detached HEAD) the fallback is
`main`. -/
theorem working_branch_precedence_witness :
    determine_working_branch sampleEnv "dev" = "dev" ∧
    determine_working_branch sampleEnv "" = "main" :=
  ⟨(working_branch_precedence sampleEnv "dev").1 (by decide),
   (working_branch_precedence sampleEnv "").2.2.2 rfl (by decide) (by decide)⟩


/-- C7: the canonical-repo path.  With no configured upstream remote and no
discovered upstream URL, a reconciliation never attempts a merge on any
path, and it returns `ok = true` whenever the clone is initialized and the
origin fetch succeeds (checkout cannot fail: the source swallows checkout
errors). -/
theorem canonical_repo_no_merge (env : SubEnv) (n p d u : String)
    (h2 : env.originUrl = some u)
    (hex : env.existingUpstreamUrl = none)
    (hgh : strContains u "github.com" = true → env.githubDiscovery.getD "" = "")
    (hgl : strContains u "gitlab.com" = true → env.gitlabDiscovery.getD "" = "") :
    (∀ ref, Action.merge ref ∉ (update_single_submodule env n p d).actions) ∧
    (env.initialized = true → env.originFetchOk = true →
      (update_single_submodule env n p d).ok = true) := by
  constructor
  · intro ref hmem
    have h := update_single_no_merge env n p d u h2 hex hgh hgl
    have ht := @mem_any_true isMergeAct (Action.merge ref) _ hmem rfl
    rw [ht] at h
    exact Bool.noConfusion h
  · intro h1 h3
    show (updateSingleCore env n p d).ok = true
    rw [updateSingleCore_reach_merge env n p d u h1 h2 h3,
      upstreamResolution_discovery_empty env u hex hgh hgl, mergePhase_no_upstream]
    rfl

/-- C7, witness: the baseline canonical submodule reconciles with
`ok = true`. -/
theorem canonical_repo_no_merge_witness :
    (update_single_submodule sampleEnv "modA" "modules/a" "").ok = true :=
  (canonical_repo_no_merge sampleEnv "modA" "modules/a" "" "https://example.org/r.git"
    rfl rfl (fun h => absurd h (by decide)) (fun h => absurd h (by decide))).2 rfl rfl

/-- C8: the upstream-discovery fast path.  With an `upstream` remote
already configured, no hosting-API discovery call and no remote
registration occurs on any path, and once the reconciliation reaches the
upstream phase the result carries the configured URL verbatim; a discovery
call can only occur when no `upstream` remote exists; and a registration
only follows a successful discovery (a nonempty URL produced by the GitHub
or GitLab oracle) on a clone with no `upstream` remote. -/
theorem upstream_discovery_fast_path (env : SubEnv) (n p d : String) :
    (∀ uu, env.existingUpstreamUrl = some uu →
      Action.discoverGitHub ∉ (update_single_submodule env n p d).actions ∧
      Action.discoverGitLab ∉ (update_single_submodule env n p d).actions ∧
      (∀ url, Action.addUpstreamRemote url ∉ (update_single_submodule env n p d).actions) ∧
      (env.initialized = true → ∀ u, env.originUrl = some u → env.originFetchOk = true →
        (update_single_submodule env n p d).result.upstream_url = uu)) ∧
    ((Action.discoverGitHub ∈ (update_single_submodule env n p d).actions ∨
      Action.discoverGitLab ∈ (update_single_submodule env n p d).actions) →
      env.existingUpstreamUrl = none) ∧
    (∀ url, Action.addUpstreamRemote url ∈ (update_single_submodule env n p d).actions →
      env.existingUpstreamUrl = none ∧ url ≠ "" ∧
      (env.githubDiscovery = some url ∨ env.gitlabDiscovery = some url)) := by
  refine ⟨fun uu huu => ⟨?_, ?_, fun url => ?_, fun h1 u h2 h3 => ?_⟩, ?_,
    fun url => update_single_add_mem env n p d url⟩
  · intro hmem
    have h := no_discovery_of_existing env n p d uu huu
    have ht := @mem_any_true isDiscoveryAct Action.discoverGitHub _ hmem rfl
    rw [ht] at h
    exact Bool.noConfusion h
  · intro hmem
    have h := no_discovery_of_existing env n p d uu huu
    have ht := @mem_any_true isDiscoveryAct Action.discoverGitLab _ hmem rfl
    rw [ht] at h
    exact Bool.noConfusion h
  · intro hmem
    have h := no_discovery_of_existing env n p d uu huu
    have ht := @mem_any_true isDiscoveryAct (Action.addUpstreamRemote url) _ hmem rfl
    rw [ht] at h
    exact Bool.noConfusion h
  · show (updateSingleCore env n p d).result.upstream_url = uu
    rw [updateSingleCore_reach_merge env n p d u h1 h2 h3,
      upstreamResolution_existing env u uu huu]
    exact mergePhase_result_uurl env n p (determine_working_branch env d) uu _ _
  · intro hd
    cases hex : env.existingUpstreamUrl with
    | none => rfl
    | some uu =>
      exfalso
      have h := no_discovery_of_existing env n p d uu hex
      rcases hd with hm | hm
      · have ht := @mem_any_true isDiscoveryAct Action.discoverGitHub _ hm rfl
        rw [ht] at h
        exact Bool.noConfusion h
      · have ht := @mem_any_true isDiscoveryAct Action.discoverGitLab _ hm rfl
        rw [ht] at h
        exact Bool.noConfusion h

/-- C8, witness: with a configured upstream the result carries its URL
verbatim. -/
theorem upstream_discovery_fast_path_witness :
    (update_single_submodule fallbackEnv "modC" "modules/c" "").result.upstream_url =
      "git@github.com:up/r.git" :=
  ((upstream_discovery_fast_path fallbackEnv "modC" "modules/c" "").1
    "git@github.com:up/r.git" rfl).2.2.2 rfl "https://example.org/r.git" rfl rfl

/-- C9: the rolling automation branch.  The Publication Manager performs
exactly one `checkout -B auto/submodule-updates <start>` attempt, and its
start point is the existing remote tip `origin/auto/submodule-updates`
when that ref exists (the branch is reset from itself, not recreated) and
`origin/<base-branch>` when it does not. -/
theorem rolling_automation_branch (dry : Bool) (senv : SuperEnv)
    (updated : List ReconResult) :
    Action.checkoutNewBranch
        (if "origin/auto/submodule-updates" ∈ senv.originRefs
         then "origin/auto/submodule-updates"
         else "origin/" ++ get_remote_default_branch senv.remoteShowOut) ∈
      (commit_superproject_changes_and_open_pr dry senv updated).actions ∧
    (∀ s, Action.checkoutNewBranch s ∈
        (commit_superproject_changes_and_open_pr dry senv updated).actions →
      s = (if "origin/auto/submodule-updates" ∈ senv.originRefs
           then "origin/auto/submodule-updates"
           else "origin/" ++ get_remote_default_branch senv.remoteShowOut)) := by
  have key : ∀ s : String,
      ((commit_superproject_changes_and_open_pr dry senv updated).actions.any
        (fun a => a == Action.checkoutNewBranch s)) =
      ((Action.checkoutBase (get_remote_default_branch senv.remoteShowOut) ==
          Action.checkoutNewBranch s) ||
        (Action.checkoutNewBranch
            (if "origin/auto/submodule-updates" ∈ senv.originRefs
             then "origin/auto/submodule-updates"
             else "origin/" ++ get_remote_default_branch senv.remoteShowOut) ==
          Action.checkoutNewBranch s)) := by
    intro s
    rw [pub_any (fun a => a == Action.checkoutNewBranch s) (fun _ => by simp)
      (by simp) (by simp) (by simp) (by simp) (fun _ => by simp) dry senv updated]
    simp [List.any_cons]
  constructor
  · have htrue : ((commit_superproject_changes_and_open_pr dry senv updated).actions.any
        (fun a => a == Action.checkoutNewBranch
          (if "origin/auto/submodule-updates" ∈ senv.originRefs
           then "origin/auto/submodule-updates"
           else "origin/" ++ get_remote_default_branch senv.remoteShowOut))) = true := by
      rw [key]
      simp
    rcases List.any_eq_true.mp htrue with ⟨x, hx, hxq⟩
    have hxe : x = Action.checkoutNewBranch
        (if "origin/auto/submodule-updates" ∈ senv.originRefs
         then "origin/auto/submodule-updates"
         else "origin/" ++ get_remote_default_branch senv.remoteShowOut) := by
      simpa using hxq
    exact hxe ▸ hx
  · intro s hmem
    have htrue := @mem_any_true (fun a => a == Action.checkoutNewBranch s) _ _ hmem (by simp)
    rw [key s] at htrue
    simp at htrue
    exact htrue.symm

/-- C9, witness: with no remote automation branch, the start point is
`origin/<base>`, here `origin/main`. -/
theorem rolling_automation_branch_witness :
    "origin/main" =
      (if "origin/auto/submodule-updates" ∈ sampleSuperEnv.originRefs
       then "origin/auto/submodule-updates"
       else "origin/" ++ get_remote_default_branch sampleSuperEnv.remoteShowOut) :=
  (rolling_automation_branch false sampleSuperEnv [baseResult "m" "p" "b" ""]).2
    "origin/main" (by decide)

/-- C10: a PR-step failure does not fail the run.  Once the reconciliation
loop, the markdown gate, every submodule push, the rolling-branch
checkout, the staging target, the commit and the superproject push have
all succeeded in live mode, the run returns `True` and the process exits
`0` for every value of the PR oracles — in particular with no GitHub
token, with failing PR search/create API calls, or with a non-GitHub
origin URL. -/
theorem pr_failure_does_not_fail_run (mods : List (SubSpec × SubEnv))
    (pushOk : String → Bool) (senv : SuperEnv)
    (hok : (runSubmodules mods).ok = true)
    (hmd : anyMdChanged (runSubmodules mods).results = true)
    (hpush : ∀ r ∈ updatedModules (runSubmodules mods).results, pushOk r.path = true)
    (hco : senv.checkoutNewOk = true)
    (hpaths : (changedPathsOf (updatedModules (runSubmodules mods).results)).isEmpty = false)
    (hdirty : senv.dirty = true) (hcommit : senv.commitOk = true)
    (hpushS : senv.pushOk = true) :
    (update_all_submodules false mods pushOk senv).ok = true ∧
    mainExitCode false mods pushOk senv = 0 := by
  have hne : mods.isEmpty = false := by
    cases mods with
    | nil =>
      rw [show runSubmodules [] = ⟨[], true, [], []⟩ from rfl] at hmd
      simp [anyMdChanged] at hmd
    | cons a l => simp
  have hpo : (pushUpdated pushOk (updatedModules (runSubmodules mods).results)).ok = true :=
    (pushUpdated_ok_iff pushOk _).mpr hpush
  have hpub := pub_ok senv (updatedModules (runSubmodules mods).results)
    hco hpaths hdirty hcommit hpushS
  have hmain : (update_all_submodules false mods pushOk senv).ok = true := by
    unfold update_all_submodules
    simp [hne, hok, hmd, hpo, hpub]
  exact ⟨hmain, by simp [mainExitCode, build_config_dry_run, hmain]⟩

/-- C10, witness: the live markdown run against a superproject with no
GitHub token and a non-GitHub origin (so the PR step can only fail) still
exits `0`. -/
theorem pr_failure_does_not_fail_run_witness :
    mainExitCode false [(mdSpec, mdSessionEnv)] (fun _ => true) sampleSuperEnv = 0 :=
  (pr_failure_does_not_fail_run [(mdSpec, mdSessionEnv)] (fun _ => true) sampleSuperEnv
    (by decide) (by decide) (fun r _ => rfl) rfl (by decide) rfl rfl rfl).2

end ReadGuides
